import Mathlib

/-!
Shallow embedding of the `file_upload` repository (Go): a range-serving HTTP
server (`cmd/server/main.go`) and a resumable chunked-download client
(`cmd/client/main.go`).  File contents are `List Nat` (byte sequences), Go
`int64` values are `Int`, and identifiers (file names, header values) are
`List Char`.  External collaborators (the OS file system, the gzip codec from
`compress/gzip`, and the MIME classification tables behind `getContentType`)
are parameters of the embedded functions; everything the repository itself
computes is translated directly from the source.
-/

namespace FileUpload

/-- Model of Go `strings.Contains(s, pat)`: `pat` occurs as a contiguous
substring of `s`. -/
def containsSubstr (pat : List Char) : List Char → Bool
  | [] => pat.isEmpty
  | c :: rest => pat.isPrefixOf (c :: rest) || containsSubstr pat rest

/-- The traversal check shared by server and client:
`strings.Contains(fileName, "..")`. -/
def containsDotDot (fileName : List Char) : Bool :=
  containsSubstr ("..".data) fileName

/-- Bytes of an error-message string, as written into an HTTP error body. -/
def strBytes (s : String) : List Nat :=
  s.data.map Char.toNat

namespace Server

/-- The two methods routed to `Handler` in `cmd/server/main.go` (`HEAD
/download/{fileName}` and `GET /download/{fileName}`). -/
inductive Method where
  | head
  | get
deriving DecidableEq

/-- Outcome of `fmt.Sscanf(rangeHeader, "bytes=%d-%d", &start, &end)` on the
`Range` header: the header may be absent (`r.Header.Get` returned `""`),
syntactically malformed (`Sscanf` errored or matched fewer than two items), or
parsed into two `int64` values. -/
inductive RangeHeader where
  | absent
  | malformed
  | parsed (start e : Int)
deriving DecidableEq

/-- A request as seen by the server `Handler`: the `{fileName}` path value,
the method, the (pre-parsed) `Range` header, and the raw `Accept-Encoding`
header value. -/
structure ServerRequest where
  fileName : List Char
  method : Method
  range : RangeHeader
  acceptEncoding : List Char

/-- Failure of `os.Open`: the file is absent (`ENOENT`) or some other OS
error carrying its own message (always distinct from the `ENOENT` text). -/
inductive OpenError where
  | enoent
  | eother (msg : String)
deriving DecidableEq

/-- The `ENOENT` text embedded in `err.Error()` by Go's `*PathError`. -/
def enoentMessage : String := "no such file or directory"

/-- The message that `err.Error()` propagates for an `os.Open` failure. -/
def openErrorMessage : OpenError → String
  | .enoent => enoentMessage
  | .eother msg => msg

/-- Responses the server `Handler` can produce.  `served` is the
`StatusPartialContent` (206) success frame: the compression flag
(`Content-Encoding: gzip` present or not), the `Content-Range` coordinates
`bytes start-e/total`, and the body actually streamed. -/
inductive ServerResponse where
  | badRequest (msg : String)
  | internalError (msg : String)
  | rangeNotSatisfiable
  | headOk (size : Int)
  | served (compressed : Bool) (start e total : Int) (body : List Nat)
deriving DecidableEq

/-- `path.Join(dir, ContentFolderName, fileName)` with the working directory
abstracted away: the path key under the serving root `files/`. -/
def serverPath (fileName : List Char) : List Char :=
  "files/".data ++ fileName

/-- `isCompressibleType` from `cmd/server/main.go`: the content type contains
one of the five compressible patterns (`strings.Contains`). -/
def isCompressibleType (contentType : List Char) : Bool :=
  [ "text/".data, "application/json".data, "application/xml".data,
    "application/javascript".data, "application/x-javascript".data
  ].any (fun t => containsSubstr t contentType)

/-- `acceptsGzip := strings.Contains(r.Header.Get("Accept-Encoding"), "gzip")`. -/
def acceptsGzip (acceptEncoding : List Char) : Bool :=
  containsSubstr ("gzip".data) acceptEncoding

/-- The compression decision from `cmd/server/main.go` lines 124-126, as the
pure function of its three inputs:
`acceptsGzip && isCompressibleType(contentType) && chunkSize >= 8*1024`. -/
def shouldCompress (acceptsGzipFlag : Bool) (contentType : List Char)
    (chunkSize : Int) : Bool :=
  acceptsGzipFlag && isCompressibleType contentType
    && decide (chunkSize ≥ 8 * 1024)

/-- `Handler` from `cmd/server/main.go`, returning the response together with
the list of file-system paths it opened (`os.Open` calls), in order.
Parameters model the external collaborators: `fs` is the file system keyed by
joined path (`os.Open` + `Stat`, yielding the file's full byte content, whose
length is `stat.Size()`); `getContentType` models the MIME
classification of step `getContentType(fileName, file)` (extension tables and
content sniffing are outside the repository); `compress` models the gzip
writer (`gzip.NewWriterLevel` + `io.Copy`). -/
def Handler (fs : List Char → Except OpenError (List Nat))
    (getContentType : List Char → List Nat → List Char)
    (compress : List Nat → List Nat)
    (req : ServerRequest) : ServerResponse × List (List Char) :=
  if containsDotDot req.fileName then
    (.badRequest "Bad Request", [])
  else
    let path := serverPath req.fileName
    match fs path with
    | .error e => (.internalError (openErrorMessage e), [path])
    | .ok content =>
      let size : Int := content.length
      if req.method = Method.head then
        (.headOk size, [path])
      else
        match req.range with
        | .absent => (.badRequest "Range header required", [path])
        | .malformed => (.badRequest "Invalid range format", [path])
        | .parsed s e =>
          if s < 0 ∨ e < s ∨ e ≥ size then
            (.rangeNotSatisfiable, [path])
          else
            let chunkSize := e - s + 1
            let contentType := getContentType req.fileName content
            let chunk := (content.drop s.toNat).take chunkSize.toNat
            if shouldCompress (acceptsGzip req.acceptEncoding) contentType
                chunkSize then
              (.served true s e size (compress chunk), [path])
            else
              (.served false s e size chunk, [path])

end Server

namespace Client

/-- `chunkSize = 512 * 1024` from `cmd/client/main.go`. -/
def chunkSize : Int := 512 * 1024

/-- A chunk response as observed by `downloadChunk`: the HTTP status code,
whether `Content-Encoding: gzip` was set, and the raw body bytes. -/
structure ChunkResponse where
  status : Nat
  gzip : Bool
  body : List Nat
deriving DecidableEq

/-- Result of the HEAD size probe (`client.Do` on the HEAD request): status
200 with the response's `ContentLength` (which Go reports as `-1` when
unknown), or a non-200 status with its body. -/
inductive ProbeResult where
  | ok (contentLength : Int)
  | fail (status : Nat) (body : List Nat)
deriving DecidableEq

/-- The distinct terminal behaviours of `FileDownloadHandler`. -/
inductive ClientOutcome where
  | badRequest
  | openError (msg : String)
  | probeError (status : Nat) (body : List Nat)
  | alreadyDownloaded
  | chunkError (status : Nat) (body : List Nat)
  | downloadComplete
deriving DecidableEq

/-- One run of `FileDownloadHandler`: its outcome, the local file paths it
opened (`os.OpenFile` calls), how many HEAD size probes it issued, the byte
ranges it requested via `downloadChunk`, and the final content of the local
file (`none` when no file was opened). -/
structure ClientRun where
  outcome : ClientOutcome
  fsOps : List (List Char)
  probes : Nat
  requests : List (Int × Int)
  finalFile : Option (List Nat)
deriving DecidableEq

/-- Result of the chunk loop: `err` is the first chunk failure (status code
and error body) if any, `written` the bytes flushed to the file, and
`requests` the ranges requested, in order. -/
structure LoopResult where
  err : Option (Nat × List Nat)
  written : List Nat
  requests : List (Int × Int)
deriving DecidableEq

/-- The window-end computation inside the loop of `FileDownloadHandler`
(`cmd/client/main.go` lines 136-139):
`end := start + chunkSize - 1; if end > totalSize { end = totalSize - 1 }`.
Note the guard is `>`, not `≥`. -/
def chunkEnd (start totalSize : Int) : Int :=
  let e := start + chunkSize - 1
  if e > totalSize then totalSize - 1 else e

/-- `downloadChunk` from `cmd/client/main.go`, with the HTTP exchange
abstracted as `oracle start e` (the response the server produced for the
request with `Range: bytes=start-e` and `Accept-Encoding: gzip`) and the gzip
reader abstracted as `decompress`.  Exactly as in the source, the body reader
is wrapped in the gzip reader first when the response is flagged, then any
status `≥ 400` returns that status and the (decoded) body as an error;
otherwise the decoded body is written out and the call succeeds.  No
byte-count comparison of any kind is performed. -/
def downloadChunk (oracle : Int → Int → ChunkResponse)
    (decompress : List Nat → List Nat) (start e : Int) :
    Except (Nat × List Nat) (List Nat) :=
  let res := oracle start e
  let body := if res.gzip then decompress res.body else res.body
  if res.status ≥ 400 then
    .error (res.status, body)
  else
    .ok body

/-- The chunk loop of `FileDownloadHandler`:
`for start := fileSize; start < totalSize; start += chunkSize`.  Each
iteration computes the window end via `chunkEnd`, fetches it with
`downloadChunk`, and either aborts on error or appends the returned bytes and
advances by `chunkSize`. -/
def fetchLoop (oracle : Int → Int → ChunkResponse)
    (decompress : List Nat → List Nat)
    (totalSize start : Int) : LoopResult :=
  if _h : start < totalSize then
    let e := chunkEnd start totalSize
    match downloadChunk oracle decompress start e with
    | .error eb => ⟨some eb, [], [(start, e)]⟩
    | .ok bytes =>
      let r := fetchLoop oracle decompress totalSize (start + chunkSize)
      ⟨r.err, bytes ++ r.written, (start, e) :: r.requests⟩
  else
    ⟨none, [], []⟩
termination_by (totalSize - start).toNat
decreasing_by
  simp only [chunkSize]
  omega

/-- `FileDownloadHandler` from `cmd/client/main.go`.  External collaborators
as parameters: `openLocal` models `os.OpenFile(fileName, O_CREATE|O_RDWR)`
followed by `Stat` (yielding the current local content, empty for a freshly
created file, or an error); `probe` is the outcome of the HEAD size probe;
`oracle` answers the per-chunk GET requests; `decompress` is the gzip
reader.  The run records the opened paths, probe count, requested ranges and
final file content; since the file is seeked to `fileSize` before the
buffered writes, the final content is the original content with the written
bytes appended. -/
def FileDownloadHandler (openLocal : List Char → Except String (List Nat))
    (probe : ProbeResult)
    (oracle : Int → Int → ChunkResponse)
    (decompress : List Nat → List Nat)
    (fileName : List Char) : ClientRun :=
  if containsDotDot fileName then
    { outcome := .badRequest, fsOps := [], probes := 0, requests := [],
      finalFile := none }
  else
    match openLocal fileName with
    | .error msg =>
      { outcome := .openError msg, fsOps := [fileName], probes := 0,
        requests := [], finalFile := none }
    | .ok localContent =>
      match probe with
      | .fail st b =>
        { outcome := .probeError st b, fsOps := [fileName], probes := 1,
          requests := [], finalFile := some localContent }
      | .ok totalSize =>
        let fileSize : Int := localContent.length
        if fileSize ≥ totalSize then
          { outcome := .alreadyDownloaded, fsOps := [fileName], probes := 1,
            requests := [], finalFile := some localContent }
        else
          let r := fetchLoop oracle decompress totalSize fileSize
          match r.err with
          | some (st, b) =>
            { outcome := .chunkError st b, fsOps := [fileName], probes := 1,
              requests := r.requests,
              finalFile := some (localContent ++ r.written) }
          | none =>
            { outcome := .downloadComplete, fsOps := [fileName], probes := 1,
              requests := r.requests,
              finalFile := some (localContent ++ r.written) }

end Client

/-- Translation of a `ServerResponse` into the status / encoding / body view
the client observes on the wire.  `http.Error` writes status 400/416/500 with
the message as body; the 206 frame carries the compression flag and the
streamed body. -/
def responseToChunk : Server.ServerResponse → Client.ChunkResponse
  | .badRequest msg => ⟨400, false, strBytes msg⟩
  | .internalError msg => ⟨500, false, strBytes msg⟩
  | .rangeNotSatisfiable => ⟨416, false, strBytes "Invalid range"⟩
  | .headOk _ => ⟨200, false, []⟩
  | .served c _ _ _ body => ⟨206, c, body⟩

/-- The server as the client's chunk oracle: each `downloadChunk` request is
a GET on `/download/{fileName}` with `Range: bytes=start-e` and
`Accept-Encoding: gzip`, answered by `Handler`. -/
def serverOracle (fs : List Char → Except Server.OpenError (List Nat))
    (getContentType : List Char → List Nat → List Char)
    (compress : List Nat → List Nat)
    (fileName : List Char) (start e : Int) : Client.ChunkResponse :=
  responseToChunk
    (Server.Handler fs getContentType compress
      { fileName := fileName, method := .get, range := .parsed start e,
        acceptEncoding := "gzip".data }).1

/-- The server as the client's size probe: a HEAD request on
`/download/{fileName}`, answered by `Handler`; a `headOk` reply carries the
`Content-Length` the client reads as `res.ContentLength`, anything else is a
non-200 failure whose body is propagated. -/
def serverProbe (fs : List Char → Except Server.OpenError (List Nat))
    (getContentType : List Char → List Nat → List Char)
    (compress : List Nat → List Nat)
    (fileName : List Char) : Client.ProbeResult :=
  match (Server.Handler fs getContentType compress
      { fileName := fileName, method := .head, range := .absent,
        acceptEncoding := [] }).1 with
  | .headOk size => .ok size
  | .badRequest msg => .fail 400 (strBytes msg)
  | .internalError msg => .fail 500 (strBytes msg)
  | .rangeNotSatisfiable => .fail 416 (strBytes "Invalid range")
  | .served _ _ _ _ body => .ok body.length

/-- The complete system: `FileDownloadHandler` driving `Handler` for both the
size probe and every chunk request, on the same file name. -/
def endToEnd (fs : List Char → Except Server.OpenError (List Nat))
    (getContentType : List Char → List Nat → List Char)
    (compress decompress : List Nat → List Nat)
    (openLocal : List Char → Except String (List Nat))
    (fileName : List Char) : Client.ClientRun :=
  Client.FileDownloadHandler openLocal
    (serverProbe fs getContentType compress fileName)
    (serverOracle fs getContentType compress fileName)
    decompress fileName

/-! ### Helper lemmas -/

/-- A list is a `isPrefixOf` of itself followed by anything. -/
theorem isPrefixOf_append_self (xs ys : List Char) :
    xs.isPrefixOf (xs ++ ys) = true := by
  induction xs with
  | nil => simp [List.isPrefixOf]
  | cons a as ih => simp [List.isPrefixOf, ih]

/-- `containsSubstr` finds a pattern that occurs as a contiguous substring. -/
theorem containsSubstr_of_split (pat l r : List Char) :
    containsSubstr pat (l ++ (pat ++ r)) = true := by
  induction l with
  | nil =>
    cases pat with
    | nil => cases r <;> simp [containsSubstr]
    | cons c cs => simp [containsSubstr, isPrefixOf_append_self]
  | cons c cl ih => simp [containsSubstr, ih]

/-! ### Concrete fixtures used by witnesses -/

/-- A five-byte sample file. -/
def sampleContent : List Nat := [1, 2, 3, 4, 5]

/-- A serving root holding exactly `files/a` with `sampleContent`. -/
def sampleFs : List Char → Except Server.OpenError (List Nat) :=
  fun p => if p = Server.serverPath "a".data then .ok sampleContent
           else .error .enoent

/-- A MIME classifier that always answers `text/plain`. -/
def sampleCT : List Char → List Nat → List Char :=
  fun _ _ => "text/plain".data

/-! ### Claims -/

/-- Claim C9: an identifier containing the substring `..` is rejected by
both the server `Handler` and the client `FileDownloadHandler` with a
client-error bad request, before any file-system access: the server's trace
of opened paths is empty, and the client run records no opened file, no
probe, and no range request. -/
theorem dotdot_rejected_before_fs_access
    (fs : List Char → Except Server.OpenError (List Nat))
    (getContentType : List Char → List Nat → List Char)
    (compress : List Nat → List Nat)
    (req : Server.ServerRequest)
    (openLocal : List Char → Except String (List Nat))
    (probe : Client.ProbeResult)
    (oracle : Int → Int → Client.ChunkResponse)
    (decompress : List Nat → List Nat)
    (l r : List Char)
    (hsplit : req.fileName = l ++ ("..".data ++ r)) :
    Server.Handler fs getContentType compress req
      = (.badRequest "Bad Request", [])
    ∧ Client.FileDownloadHandler openLocal probe oracle decompress
        req.fileName
      = { outcome := .badRequest, fsOps := [], probes := 0, requests := [],
          finalFile := none } := by
  have hdd : containsDotDot req.fileName = true := by
    rw [containsDotDot, hsplit]
    exact containsSubstr_of_split _ _ _
  exact ⟨by simp [Server.Handler, hdd],
         by simp [Client.FileDownloadHandler, hdd]⟩

/-- Witness for C9 at the identifier `a..b`. -/
theorem dotdot_rejected_before_fs_access_witness :
    ("a..b".data : List Char) = "a".data ++ ("..".data ++ "b".data)
    ∧ Server.Handler sampleFs sampleCT id ⟨"a..b".data, .get, .absent, []⟩
        = (.badRequest "Bad Request", [])
    ∧ Client.FileDownloadHandler (fun _ => .ok []) (.ok 0)
        (fun _ _ => ⟨200, false, []⟩) id ("a..b".data)
      = { outcome := .badRequest, fsOps := [], probes := 0, requests := [],
          finalFile := none } :=
  ⟨by decide,
   dotdot_rejected_before_fs_access sampleFs sampleCT id
     ⟨"a..b".data, .get, .absent, []⟩ (fun _ => .ok []) (.ok 0)
     (fun _ _ => ⟨200, false, []⟩) id "a".data "b".data (by decide)⟩

/-- Claim C7: when the local file already holds at least as many bytes as
the remote total size (`fileSize ≥ totalSize`), the Fetcher reports
completion immediately after the size probe: exactly one probe, no range
request, and the local file is left unchanged.  In particular a re-run after
a successful transfer (where `fileSize = totalSize`) is idempotent. -/
theorem fetcher_idempotent_when_complete
    (openLocal : List Char → Except String (List Nat))
    (oracle : Int → Int → Client.ChunkResponse)
    (decompress : List Nat → List Nat)
    (fileName : List Char) (localContent : List Nat) (totalSize : Int)
    (hdd : containsDotDot fileName = false)
    (hopen : openLocal fileName = .ok localContent)
    (hLT : (localContent.length : Int) ≥ totalSize) :
    Client.FileDownloadHandler openLocal (.ok totalSize) oracle decompress
        fileName
      = { outcome := .alreadyDownloaded, fsOps := [fileName], probes := 1,
          requests := [], finalFile := some localContent } := by
  simp [Client.FileDownloadHandler, hdd, hopen, hLT]

/-- Witness for C7: a three-byte local file with remote total size 3. -/
theorem fetcher_idempotent_when_complete_witness :
    (((([1, 2, 3] : List Nat)).length : Int) ≥ 3)
    ∧ Client.FileDownloadHandler (fun _ => .ok [1, 2, 3]) (.ok 3)
        (fun _ _ => ⟨200, false, []⟩) id ("a".data)
      = { outcome := .alreadyDownloaded, fsOps := ["a".data], probes := 1,
          requests := [], finalFile := some [1, 2, 3] } :=
  ⟨by decide,
   fetcher_idempotent_when_complete (fun _ => .ok [1, 2, 3])
     (fun _ _ => ⟨200, false, []⟩) id "a".data [1, 2, 3] 3
     (by decide) rfl (by decide)⟩

/-- Claim C10: when the probe declares a total size `T ≤ 0` (including the
`-1` Go reports for an unknown content length, and a zero-byte remote file),
the Fetcher reports immediate completion with no range fetch, because its
completeness test is `fileSize ≥ totalSize` and the just-opened local file
has `fileSize ≥ 0 ≥ T`. -/
theorem nonpositive_total_size_is_complete
    (openLocal : List Char → Except String (List Nat))
    (oracle : Int → Int → Client.ChunkResponse)
    (decompress : List Nat → List Nat)
    (fileName : List Char) (localContent : List Nat) (totalSize : Int)
    (hdd : containsDotDot fileName = false)
    (hopen : openLocal fileName = .ok localContent)
    (hT : totalSize ≤ 0) :
    Client.FileDownloadHandler openLocal (.ok totalSize) oracle decompress
        fileName
      = { outcome := .alreadyDownloaded, fsOps := [fileName], probes := 1,
          requests := [], finalFile := some localContent } := by
  have hLT : (localContent.length : Int) ≥ totalSize := by
    have : (0 : Int) ≤ localContent.length := Int.ofNat_nonneg _
    omega
  simp [Client.FileDownloadHandler, hdd, hopen, hLT]

/-- Witness for C10: an empty local file and an unknown remote length
reported as `-1`. -/
theorem nonpositive_total_size_is_complete_witness :
    ((-1 : Int) ≤ 0)
    ∧ Client.FileDownloadHandler (fun _ => .ok []) (.ok (-1))
        (fun _ _ => ⟨200, false, []⟩) id ("b".data)
      = { outcome := .alreadyDownloaded, fsOps := ["b".data], probes := 1,
          requests := [], finalFile := some [] } :=
  ⟨by decide,
   nonpositive_total_size_is_complete (fun _ => .ok [])
     (fun _ _ => ⟨200, false, []⟩) id "b".data [] (-1)
     (by decide) rfl (by decide)⟩

/-- Claim C8: for any request (HEAD size probe or GET content request) whose
file is absent from the serving root, the server answers with the `ENOENT`
open failure propagated in the response (`NotFound`), while any other open
failure propagates its own message (`IOError`); the two responses differ
whenever the other failure's message differs from the `ENOENT` text, so the
two error cases are distinguished in the response. -/
theorem open_failure_distinguished
    (fs : List Char → Except Server.OpenError (List Nat))
    (getContentType : List Char → List Nat → List Char)
    (compress : List Nat → List Nat)
    (req : Server.ServerRequest) (m : String)
    (hdd : containsDotDot req.fileName = false) :
    (fs (Server.serverPath req.fileName) = .error .enoent →
      (Server.Handler fs getContentType compress req).1
        = .internalError Server.enoentMessage)
    ∧ (fs (Server.serverPath req.fileName) = .error (.eother m) →
      (Server.Handler fs getContentType compress req).1
        = .internalError m)
    ∧ (m ≠ Server.enoentMessage →
        Server.ServerResponse.internalError Server.enoentMessage
          ≠ Server.ServerResponse.internalError m) := by
  refine ⟨fun hfs => ?_, fun hfs => ?_, fun hne h => hne ?_⟩
  · simp [Server.Handler, hdd, hfs, Server.openErrorMessage]
  · simp [Server.Handler, hdd, hfs, Server.openErrorMessage]
  · exact (Server.ServerResponse.internalError.injEq _ _).mp h |>.symm

/-- Witness for C8: a HEAD probe for the absent file `b` against the sample
root, and a root failing with `EACCES` on the same path. -/
theorem open_failure_distinguished_witness :
    ((Server.Handler sampleFs sampleCT id ⟨"b".data, .head, .absent, []⟩).1
        = .internalError Server.enoentMessage)
    ∧ ((Server.Handler (fun _ => .error (.eother "permission denied"))
          sampleCT id ⟨"b".data, .head, .absent, []⟩).1
        = .internalError "permission denied")
    ∧ Server.ServerResponse.internalError Server.enoentMessage
        ≠ Server.ServerResponse.internalError "permission denied" :=
  ⟨(open_failure_distinguished sampleFs sampleCT id
      ⟨"b".data, .head, .absent, []⟩ "permission denied" (by decide)).1
      rfl,
   (open_failure_distinguished (fun _ => .error (.eother "permission denied"))
      sampleCT id ⟨"b".data, .head, .absent, []⟩ "permission denied"
      (by decide)).2.1 rfl,
   (open_failure_distinguished sampleFs sampleCT id
      ⟨"b".data, .head, .absent, []⟩ "permission denied" (by decide)).2.2
      (by decide)⟩

/-- Claim C1: for a served file of content `content` and any range
`[s, e]` with `0 ≤ s ≤ e < content.length`, the client's chunk fetch against
the server — applying the transparent gzip decompression exactly when the
response is flagged compressed — yields exactly the bytes of the file at
offsets `s..e` (`(content.drop s.toNat).take (e - s + 1).toNat`), of length
exactly `e - s + 1`, byte-for-byte (`getD i` of the body equals
`getD (s + i)` of the file), regardless of which way the compression
decision went. -/
theorem range_fetch_exact_bytes
    (fs : List Char → Except Server.OpenError (List Nat))
    (getContentType : List Char → List Nat → List Char)
    (compress decompress : List Nat → List Nat)
    (fileName : List Char) (content : List Nat) (s e : Int)
    (hround : ∀ b, decompress (compress b) = b)
    (hfs : fs (Server.serverPath fileName) = .ok content)
    (hdd : containsDotDot fileName = false)
    (h0 : 0 ≤ s) (hse : s ≤ e) (heT : e < (content.length : Int)) :
    Client.downloadChunk (serverOracle fs getContentType compress fileName)
        decompress s e
      = .ok ((content.drop s.toNat).take (e - s + 1).toNat)
    ∧ ((content.drop s.toNat).take (e - s + 1).toNat).length
        = (e - s + 1).toNat
    ∧ (∀ i : Nat, i < (e - s + 1).toNat →
        ((content.drop s.toNat).take (e - s + 1).toNat).getD i 0
          = content.getD (s.toNat + i) 0) := by
  have hval : ¬(s < 0 ∨ e < s ∨ e ≥ (content.length : Int)) := by omega
  refine ⟨?_, ?_, fun i hi => ?_⟩
  · by_cases hc : Server.shouldCompress (Server.acceptsGzip "gzip".data)
        (getContentType fileName content) (e - s + 1)
    · simp [Client.downloadChunk, serverOracle, Server.Handler, hdd, hfs,
        hval, hc, responseToChunk, hround]
    · simp [Client.downloadChunk, serverOracle, Server.Handler, hdd, hfs,
        hval, hc, responseToChunk]
  · rw [List.length_take, List.length_drop]
    omega
  · rw [List.getD_eq_getElem?_getD, List.getD_eq_getElem?_getD,
      List.getElem?_take, if_pos hi, List.getElem?_drop]

/-- Witness for C1: range `[1, 3]` of the five-byte sample file, fetched
through the composed server and client. -/
theorem range_fetch_exact_bytes_witness :
    ((0 : Int) ≤ 1 ∧ (1 : Int) ≤ 3 ∧ (3 : Int) < (sampleContent.length : Int))
    ∧ Client.downloadChunk (serverOracle sampleFs sampleCT id "a".data) id 1 3
        = .ok ((sampleContent.drop (1 : Int).toNat).take
            ((3 : Int) - 1 + 1).toNat)
    ∧ ((sampleContent.drop (1 : Int).toNat).take
          ((3 : Int) - 1 + 1).toNat).length = ((3 : Int) - 1 + 1).toNat
    ∧ (∀ i : Nat, i < ((3 : Int) - 1 + 1).toNat →
        ((sampleContent.drop (1 : Int).toNat).take
            ((3 : Int) - 1 + 1).toNat).getD i 0
          = sampleContent.getD ((1 : Int).toNat + i) 0) :=
  ⟨by refine ⟨by decide, by decide, by decide⟩,
   range_fetch_exact_bytes sampleFs sampleCT id id "a".data sampleContent 1 3
     (fun b => rfl) rfl (by decide) (by decide) (by decide) (by decide)⟩

/-- Claim C4: on a GET content request for an existing readable file,
validation decides the response before any file content enters a response
body: an absent `Range` header yields the bad-request error
`Range header required`; a malformed one yields the bad-request error
`Invalid range format`; a parsed range violating
`0 ≤ start ≤ end < totalSize` yields `rangeNotSatisfiable` (HTTP 416); and a
range satisfying it is the only case that reaches the streaming response
(`served`).  All three error responses carry fixed messages and no file
bytes. -/
theorem content_request_validation
    (fs : List Char → Except Server.OpenError (List Nat))
    (getContentType : List Char → List Nat → List Char)
    (compress : List Nat → List Nat)
    (fileName : List Char) (content : List Nat) (ae : List Char)
    (hfs : fs (Server.serverPath fileName) = .ok content)
    (hdd : containsDotDot fileName = false) :
    ((Server.Handler fs getContentType compress
        ⟨fileName, .get, .absent, ae⟩).1
      = .badRequest "Range header required")
    ∧ ((Server.Handler fs getContentType compress
        ⟨fileName, .get, .malformed, ae⟩).1
      = .badRequest "Invalid range format")
    ∧ (∀ s e : Int, (s < 0 ∨ e < s ∨ e ≥ (content.length : Int)) →
        (Server.Handler fs getContentType compress
            ⟨fileName, .get, .parsed s e, ae⟩).1
          = .rangeNotSatisfiable)
    ∧ (∀ s e : Int, 0 ≤ s → s ≤ e → e < (content.length : Int) →
        ∃ (c : Bool) (body : List Nat),
          (Server.Handler fs getContentType compress
              ⟨fileName, .get, .parsed s e, ae⟩).1
            = .served c s e content.length body) := by
  refine ⟨?_, ?_, fun s e hbad => ?_, fun s e h0 hse heT => ?_⟩
  · simp [Server.Handler, hdd, hfs]
  · simp [Server.Handler, hdd, hfs]
  · simp [Server.Handler, hdd, hfs, hbad]
  · have hval : ¬(s < 0 ∨ e < s ∨ e ≥ (content.length : Int)) := by omega
    by_cases hc : Server.shouldCompress (Server.acceptsGzip ae)
        (getContentType fileName content) (e - s + 1)
    · exact ⟨true, compress ((content.drop s.toNat).take (e - s + 1).toNat),
        by simp [Server.Handler, hdd, hfs, hval, hc]⟩
    · exact ⟨false, (content.drop s.toNat).take (e - s + 1).toNat,
        by simp [Server.Handler, hdd, hfs, hval, hc]⟩

/-- Witness for C4: the four request shapes against the sample file, with
`[6, 2]` as the unsatisfiable range and `[1, 3]` as the valid one. -/
theorem content_request_validation_witness :
    ((Server.Handler sampleFs sampleCT id
        ⟨"a".data, .get, .absent, "gzip".data⟩).1
      = .badRequest "Range header required")
    ∧ ((Server.Handler sampleFs sampleCT id
        ⟨"a".data, .get, .malformed, "gzip".data⟩).1
      = .badRequest "Invalid range format")
    ∧ ((Server.Handler sampleFs sampleCT id
        ⟨"a".data, .get, .parsed 6 2, "gzip".data⟩).1
      = .rangeNotSatisfiable)
    ∧ (∃ (c : Bool) (body : List Nat),
        (Server.Handler sampleFs sampleCT id
            ⟨"a".data, .get, .parsed 1 3, "gzip".data⟩).1
          = .served c 1 3 sampleContent.length body) :=
  ⟨(content_request_validation sampleFs sampleCT id "a".data sampleContent
      "gzip".data rfl (by decide)).1,
   (content_request_validation sampleFs sampleCT id "a".data sampleContent
      "gzip".data rfl (by decide)).2.1,
   (content_request_validation sampleFs sampleCT id "a".data sampleContent
      "gzip".data rfl (by decide)).2.2.1 6 2 (by decide),
   (content_request_validation sampleFs sampleCT id "a".data sampleContent
      "gzip".data rfl (by decide)).2.2.2 1 3 (by decide) (by decide)
      (by decide)⟩

/-- Claim C6: on a valid GET content request the server's compression flag
is exactly `shouldCompress` applied to the three inputs — the client's
declared gzip acceptance (`acceptsGzip` of the `Accept-Encoding` header),
the classified content type, and the chunk size `e - s + 1` — and
`shouldCompress` is definitionally the pure conjunction
`acceptsGzip && isCompressibleType contentType && chunkSize ≥ 8*1024`,
depending on nothing else (it is a closed function of its three arguments,
recomputed on each request by `Handler`). -/
theorem compression_decision_pure
    (fs : List Char → Except Server.OpenError (List Nat))
    (getContentType : List Char → List Nat → List Char)
    (compress : List Nat → List Nat)
    (fileName : List Char) (content : List Nat) (s e : Int) (ae : List Char)
    (hfs : fs (Server.serverPath fileName) = .ok content)
    (hdd : containsDotDot fileName = false)
    (h0 : 0 ≤ s) (hse : s ≤ e) (heT : e < (content.length : Int)) :
    ((Server.Handler fs getContentType compress
        ⟨fileName, .get, .parsed s e, ae⟩).1
      = .served
          (Server.shouldCompress (Server.acceptsGzip ae)
            (getContentType fileName content) (e - s + 1))
          s e content.length
          (if Server.shouldCompress (Server.acceptsGzip ae)
              (getContentType fileName content) (e - s + 1)
            then compress ((content.drop s.toNat).take (e - s + 1).toNat)
            else (content.drop s.toNat).take (e - s + 1).toNat))
    ∧ (∀ (a : Bool) (t : List Char) (k : Int),
        Server.shouldCompress a t k
          = (a && Server.isCompressibleType t && decide (k ≥ 8 * 1024))) := by
  have hval : ¬(s < 0 ∨ e < s ∨ e ≥ (content.length : Int)) := by omega
  refine ⟨?_, fun a t k => rfl⟩
  by_cases hc : Server.shouldCompress (Server.acceptsGzip ae)
      (getContentType fileName content) (e - s + 1)
  · simp [Server.Handler, hdd, hfs, hval, hc]
  · simp [Server.Handler, hdd, hfs, hval, hc]

/-- Witness for C6: the whole sample file requested with gzip acceptance; at
5 bytes the chunk is below the 8 KiB threshold, so the decision is false and
the body is served raw. -/
theorem compression_decision_pure_witness :
    ((0 : Int) ≤ 0 ∧ (0 : Int) ≤ 4 ∧ (4 : Int) < (sampleContent.length : Int))
    ∧ ((Server.Handler sampleFs sampleCT id
        ⟨"a".data, .get, .parsed 0 4, "gzip".data⟩).1
      = .served
          (Server.shouldCompress (Server.acceptsGzip "gzip".data)
            (sampleCT "a".data sampleContent) ((4 : Int) - 0 + 1))
          0 4 sampleContent.length
          (if Server.shouldCompress (Server.acceptsGzip "gzip".data)
              (sampleCT "a".data sampleContent) ((4 : Int) - 0 + 1)
            then id ((sampleContent.drop (0 : Int).toNat).take
              ((4 : Int) - 0 + 1).toNat)
            else (sampleContent.drop (0 : Int).toNat).take
              ((4 : Int) - 0 + 1).toNat))
    ∧ (∀ (a : Bool) (t : List Char) (k : Int),
        Server.shouldCompress a t k
          = (a && Server.isCompressibleType t && decide (k ≥ 8 * 1024))) :=
  ⟨⟨by decide, by decide, by decide⟩,
   (compression_decision_pure sampleFs sampleCT id "a".data sampleContent
      0 4 "gzip".data rfl (by decide) (by decide) (by decide) (by decide)).1,
   (compression_decision_pure sampleFs sampleCT id "a".data sampleContent
      0 4 "gzip".data rfl (by decide) (by decide) (by decide) (by decide)).2⟩

/-- An adversarial chunk server: every range request is answered with
status 206, no compression flag, and a single-byte body — a byte count
inconsistent with every requested window. -/
def shortOracle : Int → Int → Client.ChunkResponse :=
  fun _ _ => ⟨206, false, [7]⟩

/-- Counterexample to claim C5: against a server that answers every range
request for a 1 MiB file with a single byte, the Fetcher does not abort with
any protocol violation — it runs both chunk requests, reports
`downloadComplete`, and leaves a 2-byte local file, even though the received
count (1) differs from the requested `e - s + 1` (524288). -/
theorem byte_count_mismatch_not_detected :
    Client.FileDownloadHandler (fun _ => .ok []) (.ok 1048576) shortOracle id
        ("a".data)
      = { outcome := .downloadComplete, fsOps := ["a".data], probes := 1,
          requests := [(0, 524287), (524288, 1048575)],
          finalFile := some [7, 7] }
    ∧ ([7] : List Nat).length ≠ ((524287 : Int) - 0 + 1).toNat := by
  have hdd : containsDotDot "a".data = false := by decide
  have hloop : Client.fetchLoop shortOracle id 1048576 0
      = ⟨none, [7, 7], [(0, 524287), (524288, 1048575)]⟩ := by
    unfold Client.fetchLoop
    unfold Client.fetchLoop
    unfold Client.fetchLoop
    norm_num [Client.chunkEnd, Client.chunkSize, Client.downloadChunk,
      shortOracle]
  constructor
  · simp [Client.FileDownloadHandler, hdd, hloop]
  · decide

/-- Claim C5 as amended: `downloadChunk` never compares the received byte
count against the requested window `[s, e]`: any response whose status is
below 400 is accepted, and its (transparently decompressed) body — of
whatever length — is written and returned as success, so a server byte-count
mismatch is not detected and the transfer is not aborted. -/
theorem chunk_success_ignores_byte_count
    (oracle : Int → Int → Client.ChunkResponse)
    (decompress : List Nat → List Nat) (s e : Int)
    (hstatus : (oracle s e).status < 400) :
    Client.downloadChunk oracle decompress s e
      = .ok (if (oracle s e).gzip then decompress (oracle s e).body
             else (oracle s e).body) := by
  have h400 : ¬((oracle s e).status ≥ 400) := by omega
  simp [Client.downloadChunk, h400]

/-- Witness for the amended C5: the one-byte answer to the 524288-byte
request `[0, 524287]` is accepted as success. -/
theorem chunk_success_ignores_byte_count_witness :
    ((shortOracle 0 524287).status < 400)
    ∧ Client.downloadChunk shortOracle id 0 524287
      = .ok (if (shortOracle 0 524287).gzip
             then id (shortOracle 0 524287).body
             else (shortOracle 0 524287).body) :=
  ⟨by decide,
   chunk_success_ignores_byte_count shortOracle id 0 524287 (by decide)⟩

/-- Claim C3's divergence: at `cursor = 0`, `T = 524287`
(`T - cursor = chunkSize - 1`), the loop's window-end computation
(`end := start + chunkSize - 1; if end > totalSize { end = totalSize - 1 }`)
yields `end = 524287 = T`, not the claimed
`min (cursor + chunkSize) T - 1 = 524286 < T`: the requested end is not
strictly less than the total size. -/
theorem window_end_equals_total_at_boundary :
    Client.chunkEnd 0 524287 = 524287
    ∧ min ((0 : Int) + Client.chunkSize) 524287 - 1 = 524286
    ∧ Client.chunkEnd 0 524287 ≠ min ((0 : Int) + Client.chunkSize) 524287 - 1 := by
  refine ⟨by norm_num [Client.chunkEnd, Client.chunkSize],
    by norm_num [Client.chunkSize], by norm_num [Client.chunkEnd, Client.chunkSize]⟩

/-- A remote file whose size is exactly `chunkSize - 1 = 524287` bytes. -/
def remoteContent : List Nat := List.replicate 524287 0

/-- A serving root holding exactly `files/a` with `remoteContent`. -/
def boundaryFs : List Char → Except Server.OpenError (List Nat) :=
  fun p => if p = Server.serverPath "a".data then .ok remoteContent
           else .error .enoent

/-- Claim C2's divergence, evaluated end to end: fetching the 524287-byte
remote file into an empty local file (`L = 0 < T = 524287`), the Fetcher's
single range request is `[0, 524287]` — whose end equals `T`, outside
`[L, T)` — the server rejects it with 416 (`Invalid range`), and the run
aborts with the local file still empty instead of completing with a
`T`-byte copy. -/
theorem resume_aborts_at_boundary_size :
    endToEnd boundaryFs sampleCT id id (fun _ => .ok []) ("a".data)
      = { outcome := .chunkError 416 (strBytes "Invalid range"),
          fsOps := ["a".data], probes := 1, requests := [(0, 524287)],
          finalFile := some [] }
    ∧ some ([] : List Nat) ≠ some remoteContent
    ∧ ¬((524287 : Int) < (remoteContent.length : Int)) := by
  have hdd : containsDotDot "a".data = false := by decide
  have hfs : boundaryFs (Server.serverPath "a".data) = .ok remoteContent := by
    simp [boundaryFs]
  have hlen : remoteContent.length = 524287 := by
    unfold remoteContent
    exact List.length_replicate _ _
  have hprobe : ∀ content : List Nat, content.length = 524287 →
      ∀ fs2 : List Char → Except Server.OpenError (List Nat),
        fs2 (Server.serverPath "a".data) = .ok content →
        serverProbe fs2 sampleCT id "a".data = .ok 524287 := by
    intro content hlen2 fs2 hfs2
    simp [serverProbe, Server.Handler, hdd, hfs2, hlen2]
  have horacle : ∀ content : List Nat, content.length = 524287 →
      ∀ fs2 : List Char → Except Server.OpenError (List Nat),
        fs2 (Server.serverPath "a".data) = .ok content →
        Client.downloadChunk (serverOracle fs2 sampleCT id "a".data) id
          0 524287 = .error (416, strBytes "Invalid range") := by
    intro content hlen2 fs2 hfs2
    have hval : (0 : Int) < 0 ∨ (524287 : Int) < 0
        ∨ (524287 : Int) ≥ (content.length : Int) := by omega
    have hle : content.length ≤ 524287 := by omega
    simp [Client.downloadChunk, serverOracle, Server.Handler, hdd, hfs2,
      hval, hle, responseToChunk]
  have hloop : Client.fetchLoop (serverOracle boundaryFs sampleCT id "a".data)
      id 524287 0
      = ⟨some (416, strBytes "Invalid range"), [], [(0, 524287)]⟩ := by
    unfold Client.fetchLoop
    rw [dif_pos (by norm_num : (0 : Int) < 524287)]
    have hce : Client.chunkEnd 0 524287 = 524287 := by
      norm_num [Client.chunkEnd, Client.chunkSize]
    simp only [hce, horacle remoteContent hlen boundaryFs hfs]
  refine ⟨?_, ?_, ?_⟩
  · simp [endToEnd, Client.FileDownloadHandler, hdd,
      hprobe remoteContent hlen boundaryFs hfs, hloop]
  · intro hcontra
    have h1 : ([] : List Nat) = remoteContent := Option.some.inj hcontra
    have h2 := congrArg List.length h1
    rw [hlen] at h2
    simp at h2
  · simp [hlen]

end FileUpload
